import Mathlib

/-!
Shallow embedding of `src/memoria.py` (a memory-matching card game) and
proofs about its card state machine.

Modelling conventions:
* A `Carta` (card) carries its value, stored coordinates, its index in the
  deck, and the two boolean flags `virada` (face up / Revealed) and
  `combinada` (matched).  In the Python source `virada` and `combinada` are
  class attributes defaulting to `False` that are shadowed by instance
  attributes on first write; observable behaviour is that of per-instance
  booleans initialised to `False`, which is how they are embedded here.
* Mutation of the card list is embedded as functional update: each Python
  statement that mutates a card in place becomes a positional update of the
  list.  Python indexing `cartas[i]` is embedded with `List.getD`/`List.set`;
  an out-of-range index (which would raise `IndexError` in Python) never
  occurs in any state the program produces (see the well-indexing results
  below), and is modelled as reading a default card / a no-op write.
* `time.sleep(0.5)` is embedded by returning the slept duration (in the
  source's time-units, seconds) alongside the new card list.
* `random.shuffle` is embedded by quantifying over an arbitrary permutation
  of the unshuffled value list.
-/

/-- Class attribute `Carta.largura` (card width, 40). -/
def Carta.largura : ℤ := 40

/-- Class attribute `Carta.altura` (card height, 80). -/
def Carta.altura : ℤ := 80

/-- Class attribute `Carta.margem` (board margin, 50). -/
def Carta.margem : ℤ := 50

/-- Class attribute `Carta.espaco_entre_cartas` (spacing, 20). -/
def Carta.espaco_entre_cartas : ℤ := 20

/-- `Carta.define_coordenadas`: the (x, y) position of a card, a pure
function of its index and the layout constants.  The Python method has a
default argument `cartas_por_linha = 5`; the caller in `Carta.__init__`
uses that default. -/
def define_coordenadas (indice : ℕ) (cartas_por_linha : ℕ) : ℤ × ℤ :=
  let linha := indice / cartas_por_linha
  let coluna := indice % cartas_por_linha
  let pos_y : ℤ := (linha : ℤ) * (Carta.altura + Carta.espaco_entre_cartas)
  let pos_x : ℤ := (coluna : ℤ) * (Carta.largura + Carta.espaco_entre_cartas)
  (pos_x, pos_y)

/-- The state of one card (class `Carta`). -/
structure Carta where
  valor : ℕ
  posx : ℤ
  posy : ℤ
  indice : ℕ
  virada : Bool
  combinada : Bool
  deriving DecidableEq, Inhabited

/-- `Carta.__init__(valor, indice)`: stores the value and index and derives
the coordinates; `virada` and `combinada` start out `false`. -/
def Carta.init (valor : ℕ) (indice : ℕ) : Carta :=
  let p := define_coordenadas indice 5
  { valor := valor, posx := p.1, posy := p.2, indice := indice,
    virada := false, combinada := false }

/-- `Carta.virar`: sets `virada` to `True`. -/
def Carta.virar (self : Carta) : Carta :=
  { self with virada := true }

/-- `Carta.foi_clicada(coord)`: closed-interval containment test of the
click coordinate in the card's rectangle, shifted by the margin. -/
def Carta.foi_clicada (self : Carta) (coord : ℤ × ℤ) : Bool :=
  let vertice_direito := Carta.margem + self.posx + Carta.largura
  let vertice_inferior := Carta.margem + self.posy + Carta.altura
  if Carta.margem + self.posx ≤ coord.1 ∧ coord.1 ≤ vertice_direito then
    if Carta.margem + self.posy ≤ coord.2 ∧ coord.2 ≤ vertice_inferior then
      true
    else
      false
  else
    false

/-- `trata_clique(coord, cartas)`: flips every card whose containment test
accepts the click coordinate (the Python loop has no `break`). -/
def trata_clique (coord : ℤ × ℤ) (cartas : List Carta) : List Carta :=
  cartas.map (fun carta => if carta.foi_clicada coord then carta.virar else carta)

/-- The unshuffled value list `list(range(20 // 2)) * 2` built by
`Tela.cria_cartas`. -/
def baralho_valores : List ℕ :=
  List.range (20 / 2) ++ List.range (20 / 2)

/-- Helper mirroring Python's `enumerate`: builds one card per value,
numbering positions from `i`. -/
def cria_cartas_aux : ℕ → List ℕ → List Carta
  | _, [] => []
  | i, v :: vs => Carta.init v i :: cria_cartas_aux (i + 1) vs

/-- `Tela.cria_cartas`: one card per shuffled value, indexed by position.
The shuffle is modelled by taking the already-shuffled list `valores` as a
parameter (theorems quantify over permutations of `baralho_valores`). -/
def cria_cartas (valores : List ℕ) : List Carta :=
  cria_cartas_aux 0 valores

/-- The first loop of `ocultar_cartas_se_necessario`: the indices (`indice`
fields) of the unmatched face-up cards, in deck order.  The loop's counter
`cartas_viradas` always equals the length of this list. -/
def coleta_viradas (cartas : List Carta) : List ℕ :=
  (cartas.filter (fun carta => !carta.combinada && carta.virada)).map Carta.indice

/-- The Python statement `cartas[i].combinada = True` as a functional
update (a no-op when `i` is out of range, which in Python would raise). -/
def marca_combinada (cartas : List Carta) (i : ℕ) : List Carta :=
  cartas.set i { cartas.getD i default with combinada := true }

/-- The body of the final loop of `ocultar_cartas_se_necessario`:
`if carta.combinada == False: carta.virada = False`. -/
def esconde (carta : Carta) : Carta :=
  if carta.combinada then carta else { carta with virada := false }

/-- `ocultar_cartas_se_necessario(cartas)`: when exactly two unmatched
cards are face up, mark them matched if their values agree, then turn every
unmatched card face down, then `time.sleep(0.5)`.  Returns the new card
list and the total time slept. -/
def ocultar_cartas_se_necessario (cartas : List Carta) : List Carta × ℚ :=
  let indices := coleta_viradas cartas
  if indices.length = 2 then
    let i0 := indices.getD 0 0
    let i1 := indices.getD 1 0
    let cartas1 :=
      if (cartas.getD i0 default).valor = (cartas.getD i1 default).valor then
        marca_combinada (marca_combinada cartas i0) i1
      else
        cartas
    (cartas1.map esconde, 1/2)
  else
    (cartas, 0)

/-- The two state-mutating operations the game loop performs on the card
list: handling a click (`trata_clique`, reached from `trata_eventos` on a
`MOUSEBUTTONUP` event) and one resolver step
(`ocultar_cartas_se_necessario`). -/
inductive Op where
  | clique (coord : ℤ × ℤ)
  | resolver
  deriving DecidableEq

/-- Apply one operation to the card list. -/
def aplica (op : Op) (cartas : List Carta) : List Carta :=
  match op with
  | Op.clique coord => trata_clique coord cartas
  | Op.resolver => (ocultar_cartas_se_necessario cartas).1

/-- Apply a sequence of operations, oldest first. -/
def aplica_tudo (ops : List Op) (cartas : List Carta) : List Carta :=
  ops.foldl (fun s op => aplica op s) cartas

/-- Well-indexing: the card stored at list position `i` has `indice = i`.
Stated as: the `indice` fields read off in order are `0, 1, ..., len-1`. -/
def BoaIdx (cartas : List Carta) : Prop :=
  cartas.map Carta.indice = List.range cartas.length

/-- A card list is reachable when it results from applying some sequence of
the program's operations to a freshly generated deck. -/
def Atingivel (cartas : List Carta) : Prop :=
  ∃ valores ops, valores.Perm baralho_valores ∧
    cartas = aplica_tudo ops (cria_cartas valores)

/-! ### Geometry of the containment test -/

/-- The containment test accepts exactly the points of the closed rectangle
of the card, shifted by the margin. -/
lemma foi_clicada_iff (c : Carta) (coord : ℤ × ℤ) :
    c.foi_clicada coord = true ↔
      (Carta.margem + c.posx ≤ coord.1 ∧
       coord.1 ≤ Carta.margem + c.posx + Carta.largura ∧
       Carta.margem + c.posy ≤ coord.2 ∧
       coord.2 ≤ Carta.margem + c.posy + Carta.altura) := by
  simp only [Carta.foi_clicada]
  split_ifs with h1 h2
  · simp
    omega
  · simp
    omega
  · simp
    omega

/-- x-coordinate of a freshly constructed card. -/
lemma init_posx (v i : ℕ) : (Carta.init v i).posx = ((i % 5 : ℕ) : ℤ) * 60 := by
  simp [Carta.init, define_coordenadas, Carta.largura, Carta.espaco_entre_cartas]

/-- y-coordinate of a freshly constructed card. -/
lemma init_posy (v i : ℕ) : (Carta.init v i).posy = ((i / 5 : ℕ) : ℤ) * 100 := by
  simp [Carta.init, define_coordenadas, Carta.altura, Carta.espaco_entre_cartas]

/-- Cards constructed at distinct deck indices have disjoint rectangles,
even with closed-interval boundaries: no point is contained in both. -/
lemma cartas_disjuntas (v w i j : ℕ) (hij : i ≠ j) (coord : ℤ × ℤ) :
    ¬((Carta.init v i).foi_clicada coord = true ∧
      (Carta.init w j).foi_clicada coord = true) := by
  rintro ⟨hi, hj⟩
  rw [foi_clicada_iff] at hi hj
  rw [init_posx, init_posy] at hi
  rw [init_posx, init_posy] at hj
  simp only [Carta.margem, Carta.largura, Carta.altura] at hi hj
  omega

/-! ### Deck construction -/

lemma length_cria_cartas_aux (i : ℕ) (vs : List ℕ) :
    (cria_cartas_aux i vs).length = vs.length := by
  induction vs generalizing i with
  | nil => rfl
  | cons v vs ih => simp [cria_cartas_aux, ih]

lemma length_cria_cartas (valores : List ℕ) :
    (cria_cartas valores).length = valores.length :=
  length_cria_cartas_aux 0 valores

lemma map_valor_cria_cartas_aux (i : ℕ) (vs : List ℕ) :
    (cria_cartas_aux i vs).map Carta.valor = vs := by
  induction vs generalizing i with
  | nil => rfl
  | cons v vs ih => simp [cria_cartas_aux, ih, Carta.init]

lemma map_indice_cria_cartas_aux (i : ℕ) (vs : List ℕ) :
    (cria_cartas_aux i vs).map Carta.indice = List.range' i vs.length := by
  induction vs generalizing i with
  | nil => rfl
  | cons v vs ih => simp [cria_cartas_aux, ih, Carta.init, List.range'_succ]

lemma virgem_cria_cartas_aux (i : ℕ) (vs : List ℕ) :
    ∀ c ∈ cria_cartas_aux i vs, c.combinada = false ∧ c.virada = false := by
  induction vs generalizing i with
  | nil => intro c hc; simp [cria_cartas_aux] at hc
  | cons v vs ih =>
    intro c hc
    rw [cria_cartas_aux, List.mem_cons] at hc
    rcases hc with rfl | hc
    · simp [Carta.init]
    · exact ih (i + 1) c hc

lemma boaIdx_cria_cartas (valores : List ℕ) : BoaIdx (cria_cartas valores) := by
  unfold BoaIdx
  rw [length_cria_cartas]
  rw [cria_cartas, map_indice_cria_cartas_aux, List.range_eq_range']

/-! ### Indexing helpers -/

lemma mem_iff_getD (cartas : List Carta) (c : Carta) :
    c ∈ cartas ↔ ∃ k, k < cartas.length ∧ cartas.getD k default = c := by
  rw [List.mem_iff_getElem]
  constructor
  · rintro ⟨k, hk, rfl⟩
    exact ⟨k, hk, List.getD_eq_getElem _ _ hk⟩
  · rintro ⟨k, hk, rfl⟩
    exact ⟨k, hk, (List.getD_eq_getElem _ _ hk).symm⟩

lemma boaIdx_getD (cartas : List Carta) (h : BoaIdx cartas) (k : ℕ)
    (hk : k < cartas.length) : (cartas.getD k default).indice = k := by
  have h1 : (cartas.map Carta.indice).getD k 0 =
      (List.range cartas.length).getD k 0 := by rw [h]
  rw [List.getD_eq_getElem _ _ (by simpa using hk),
      List.getD_eq_getElem _ _ (by simpa using hk)] at h1
  simp only [List.getElem_map, List.getElem_range] at h1
  rw [List.getD_eq_getElem _ _ hk]
  exact h1

lemma boaIdx_of_getD (cartas : List Carta)
    (h : ∀ k, k < cartas.length → (cartas.getD k default).indice = k) :
    BoaIdx cartas := by
  unfold BoaIdx
  apply List.ext_getElem
  · simp
  · intro k h1 h2
    rw [List.getElem_map, List.getElem_range]
    have h3 := h k (by simpa using h1)
    rw [List.getD_eq_getElem _ _ (by simpa using h1)] at h3
    exact h3

lemma getD_map_carta (f : Carta → Carta) (l : List Carta) (k : ℕ)
    (hk : k < l.length) : (l.map f).getD k default = f (l.getD k default) := by
  rw [List.getD_eq_getElem (l.map f) default (by simpa using hk),
      List.getElem_map, List.getD_eq_getElem l default hk]

lemma map_eq_self_de (f : Carta → Carta) (l : List Carta)
    (h : ∀ c ∈ l, f c = c) : l.map f = l := by
  induction l with
  | nil => rfl
  | cons c l ih =>
    rw [List.map_cons, h c (by simp), ih (fun x hx => h x (by simp [hx]))]

/-! ### The collected indices of face-up unmatched cards -/

lemma mem_coleta_iff (cartas : List Carta) (h : BoaIdx cartas) (j : ℕ) :
    j ∈ coleta_viradas cartas ↔
      j < cartas.length ∧ (cartas.getD j default).virada = true ∧
        (cartas.getD j default).combinada = false := by
  unfold coleta_viradas
  rw [List.mem_map]
  constructor
  · rintro ⟨c, hc, rfl⟩
    rw [List.mem_filter] at hc
    obtain ⟨hmem, hp⟩ := hc
    simp only [Bool.and_eq_true, Bool.not_eq_true'] at hp
    obtain ⟨k, hk, hck⟩ := (mem_iff_getD cartas c).mp hmem
    have hi := boaIdx_getD cartas h k hk
    rw [hck] at hi
    rw [hi, hck]
    exact ⟨hk, hp.2, hp.1⟩
  · rintro ⟨hj, hv, hc⟩
    refine ⟨cartas.getD j default, ?_, boaIdx_getD cartas h j hj⟩
    rw [List.mem_filter]
    refine ⟨(mem_iff_getD cartas _).mpr ⟨j, hj, rfl⟩, ?_⟩
    simp only [Bool.and_eq_true, Bool.not_eq_true']
    exact ⟨hc, hv⟩

lemma coleta_nodup (cartas : List Carta) (h : BoaIdx cartas) :
    (coleta_viradas cartas).Nodup := by
  unfold coleta_viradas
  have hsub : ((cartas.filter fun c => !c.combinada && c.virada).map
      Carta.indice).Sublist (cartas.map Carta.indice) :=
    (List.filter_sublist _).map _
  have hnd : (cartas.map Carta.indice).Nodup := by
    rw [h]; exact List.nodup_range _
  exact hnd.sublist hsub

/-! ### Per-card state update lemmas -/

lemma length_marca (cartas : List Carta) (i : ℕ) :
    (marca_combinada cartas i).length = cartas.length := by
  simp [marca_combinada]

lemma getD_marca (cartas : List Carta) (i k : ℕ) (hk : k < cartas.length) :
    (marca_combinada cartas i).getD k default =
      if k = i then { cartas.getD k default with combinada := true }
      else cartas.getD k default := by
  unfold marca_combinada
  rw [List.getD_eq_getElem _ _ (by simpa using hk), List.getElem_set]
  rcases eq_or_ne i k with hik | hik
  · subst hik
    simp [List.getD_eq_getElem _ _ hk]
  · rw [if_neg hik, if_neg (Ne.symm hik), List.getD_eq_getElem _ _ hk]

lemma carta_virar_self (c : Carta) (h : c.virada = true) : c.virar = c := by
  cases c
  simp_all [Carta.virar]

lemma esconde_eq_self_of_combinada (c : Carta) (h : c.combinada = true) :
    esconde c = c := by
  simp [esconde, h]

lemma esconde_eq_self_of_oculta (c : Carta) (h : c.virada = false) :
    esconde c = c := by
  cases c
  simp only [esconde]
  split <;> simp_all

lemma esconde_of_nao_combinada (c : Carta) (h : c.combinada = false) :
    esconde c = { c with virada := false } := by
  unfold esconde
  rw [h]
  simp

/-! ### Resolver step: structural lemmas -/

lemma coleta_length_countP (cartas : List Carta) :
    (coleta_viradas cartas).length =
      cartas.countP (fun c => !c.combinada && c.virada) := by
  rw [coleta_viradas, List.length_map, ← List.countP_eq_length_filter]

lemma resolver_nao_par (cartas : List Carta)
    (h : (coleta_viradas cartas).length ≠ 2) :
    ocultar_cartas_se_necessario cartas = (cartas, 0) := by
  unfold ocultar_cartas_se_necessario
  simp [h]

lemma resolver_par (cartas : List Carta) (i0 i1 : ℕ)
    (hc : coleta_viradas cartas = [i0, i1]) :
    ocultar_cartas_se_necessario cartas =
      ((if (cartas.getD i0 default).valor = (cartas.getD i1 default).valor then
          marca_combinada (marca_combinada cartas i0) i1
        else cartas).map esconde, 1/2) := by
  unfold ocultar_cartas_se_necessario
  rw [hc]
  simp [List.getD_cons_zero, List.getD_cons_succ]

lemma esconde_eq_self_fora (cartas : List Carta) (hB : BoaIdx cartas)
    (i0 i1 k : ℕ) (hc : coleta_viradas cartas = [i0, i1])
    (hk : k < cartas.length) (h0 : k ≠ i0) (h1 : k ≠ i1) :
    esconde (cartas.getD k default) = cartas.getD k default := by
  cases hco : (cartas.getD k default).combinada with
  | true => exact esconde_eq_self_of_combinada _ hco
  | false =>
    cases hv : (cartas.getD k default).virada with
    | false => exact esconde_eq_self_of_oculta _ hv
    | true =>
      exfalso
      have hmem : k ∈ coleta_viradas cartas :=
        (mem_coleta_iff cartas hB k).mpr ⟨hk, hv, hco⟩
      rw [hc] at hmem
      simp at hmem
      tauto

/-- Description of a resolver step on a well-indexed board whose two
face-up unmatched cards (at positions `i0`, `i1`) carry equal values: both
are marked matched, everything else is untouched. -/
lemma resolver_igual_descr (cartas : List Carta) (hB : BoaIdx cartas)
    (i0 i1 : ℕ) (hc : coleta_viradas cartas = [i0, i1])
    (heq : (cartas.getD i0 default).valor = (cartas.getD i1 default).valor) :
    (ocultar_cartas_se_necessario cartas).1.length = cartas.length ∧
    (∀ k, k < cartas.length →
      (ocultar_cartas_se_necessario cartas).1.getD k default =
        (if k = i0 ∨ k = i1 then
          { cartas.getD k default with combinada := true }
        else cartas.getD k default)) := by
  have hne : i0 ≠ i1 := by
    have hnd := coleta_nodup cartas hB
    rw [hc] at hnd
    simp [List.nodup_cons] at hnd
    exact hnd
  rw [resolver_par cartas i0 i1 hc, if_pos heq]
  have hlen1 : (marca_combinada (marca_combinada cartas i0) i1).length =
      cartas.length := by
    rw [length_marca, length_marca]
  refine ⟨by simp [hlen1], ?_⟩
  intro k hk
  rw [getD_map_carta _ _ _ (by rw [hlen1]; exact hk)]
  rw [getD_marca _ _ _ (by rw [length_marca]; exact hk)]
  rw [getD_marca _ _ _ hk]
  rcases eq_or_ne k i0 with h0 | h0
  · subst h0
    rw [if_neg (fun hh => hne hh), if_pos rfl,
        esconde_eq_self_of_combinada _ rfl, if_pos (Or.inl rfl)]
  · rcases eq_or_ne k i1 with h1 | h1
    · subst h1
      rw [if_pos rfl, if_neg h0, esconde_eq_self_of_combinada _ rfl,
          if_pos (Or.inr rfl)]
    · rw [if_neg h1, if_neg h0, if_neg (by tauto)]
      exact esconde_eq_self_fora cartas hB i0 i1 k hc hk h0 h1

/-- Description of a resolver step on a well-indexed board whose two
face-up unmatched cards (at positions `i0`, `i1`) carry unequal values:
the 0.5 time-unit delay is applied and exactly those two cards are turned
face down; everything else is untouched. -/
lemma resolver_difer_descr (cartas : List Carta) (hB : BoaIdx cartas)
    (i0 i1 : ℕ) (hc : coleta_viradas cartas = [i0, i1])
    (hval : (cartas.getD i0 default).valor ≠ (cartas.getD i1 default).valor) :
    (ocultar_cartas_se_necessario cartas).2 = 1/2 ∧
    (ocultar_cartas_se_necessario cartas).1.length = cartas.length ∧
    (∀ k, k < cartas.length →
      (ocultar_cartas_se_necessario cartas).1.getD k default =
        (if k = i0 ∨ k = i1 then
          { cartas.getD k default with virada := false }
        else cartas.getD k default)) := by
  have hmem0 : i0 ∈ coleta_viradas cartas := by rw [hc]; simp
  have hmem1 : i1 ∈ coleta_viradas cartas := by rw [hc]; simp
  rw [mem_coleta_iff cartas hB] at hmem0 hmem1
  rw [resolver_par cartas i0 i1 hc, if_neg hval]
  refine ⟨rfl, by simp, ?_⟩
  intro k hk
  rw [getD_map_carta _ _ _ hk]
  rcases eq_or_ne k i0 with h0 | h0
  · subst h0
    rw [if_pos (Or.inl rfl)]
    exact esconde_of_nao_combinada _ hmem0.2.2
  · rcases eq_or_ne k i1 with h1 | h1
    · subst h1
      rw [if_pos (Or.inr rfl)]
      exact esconde_of_nao_combinada _ hmem1.2.2
    · rw [if_neg (by tauto)]
      exact esconde_eq_self_fora cartas hB i0 i1 k hc hk h0 h1

/-! ### Persistence of matched cards -/

lemma aplica_tudo_cons (op : Op) (ops : List Op) (cartas : List Carta) :
    aplica_tudo (op :: ops) cartas = aplica_tudo ops (aplica op cartas) := rfl

lemma persiste_clique (coord : ℤ × ℤ) (cartas : List Carta) (k : ℕ)
    (hk : k < cartas.length)
    (h1 : (cartas.getD k default).combinada = true)
    (h2 : (cartas.getD k default).virada = true) :
    (trata_clique coord cartas).length = cartas.length ∧
    ((trata_clique coord cartas).getD k default).combinada = true ∧
    ((trata_clique coord cartas).getD k default).virada = true := by
  refine ⟨by simp [trata_clique], ?_, ?_⟩ <;>
  · rw [trata_clique, getD_map_carta _ _ _ hk]
    split <;> simp_all [Carta.virar]

lemma persiste_marca (cartas : List Carta) (i k : ℕ) (hk : k < cartas.length)
    (h1 : (cartas.getD k default).combinada = true)
    (h2 : (cartas.getD k default).virada = true) :
    ((marca_combinada cartas i).getD k default).combinada = true ∧
    ((marca_combinada cartas i).getD k default).virada = true := by
  constructor <;>
  · rw [getD_marca _ _ _ hk]
    split <;> simp_all

lemma persiste_esconde (l : List Carta) (k : ℕ) (hk : k < l.length)
    (h1 : (l.getD k default).combinada = true)
    (h2 : (l.getD k default).virada = true) :
    ((l.map esconde).getD k default).combinada = true ∧
    ((l.map esconde).getD k default).virada = true := by
  rw [getD_map_carta _ _ _ hk, esconde_eq_self_of_combinada _ h1]
  exact ⟨h1, h2⟩

lemma persiste_resolver (cartas : List Carta) (k : ℕ) (hk : k < cartas.length)
    (h1 : (cartas.getD k default).combinada = true)
    (h2 : (cartas.getD k default).virada = true) :
    (ocultar_cartas_se_necessario cartas).1.length = cartas.length ∧
    (((ocultar_cartas_se_necessario cartas).1.getD k default).combinada = true ∧
     ((ocultar_cartas_se_necessario cartas).1.getD k default).virada = true) := by
  by_cases hlen : (coleta_viradas cartas).length = 2
  · obtain ⟨i0, i1, hc⟩ := List.length_eq_two.mp hlen
    rw [resolver_par cartas i0 i1 hc]
    by_cases hv : (cartas.getD i0 default).valor = (cartas.getD i1 default).valor
    · rw [if_pos hv]
      have hk1 : k < (marca_combinada cartas i0).length := by
        rw [length_marca]; exact hk
      have hk2 : k < (marca_combinada (marca_combinada cartas i0) i1).length := by
        rw [length_marca, length_marca]; exact hk
      have p1 := persiste_marca cartas i0 k hk h1 h2
      have p2 := persiste_marca (marca_combinada cartas i0) i1 k hk1 p1.1 p1.2
      refine ⟨by simp [length_marca], ?_⟩
      exact persiste_esconde _ k hk2 p2.1 p2.2
    · rw [if_neg hv]
      exact ⟨by simp, persiste_esconde cartas k hk h1 h2⟩
  · rw [resolver_nao_par cartas hlen]
    exact ⟨rfl, h1, h2⟩

lemma persiste_op (op : Op) (cartas : List Carta) (k : ℕ) (hk : k < cartas.length)
    (h1 : (cartas.getD k default).combinada = true)
    (h2 : (cartas.getD k default).virada = true) :
    (aplica op cartas).length = cartas.length ∧
    ((aplica op cartas).getD k default).combinada = true ∧
    ((aplica op cartas).getD k default).virada = true := by
  cases op with
  | clique coord => exact persiste_clique coord cartas k hk h1 h2
  | resolver =>
    obtain ⟨hl, hp⟩ := persiste_resolver cartas k hk h1 h2
    exact ⟨hl, hp⟩

lemma persiste_ops (ops : List Op) (cartas : List Carta) (k : ℕ)
    (hk : k < cartas.length)
    (h1 : (cartas.getD k default).combinada = true)
    (h2 : (cartas.getD k default).virada = true) :
    k < (aplica_tudo ops cartas).length ∧
    ((aplica_tudo ops cartas).getD k default).combinada = true ∧
    ((aplica_tudo ops cartas).getD k default).virada = true := by
  induction ops generalizing cartas with
  | nil => exact ⟨hk, h1, h2⟩
  | cons op ops ih =>
    obtain ⟨hl, hc, hv⟩ := persiste_op op cartas k hk h1 h2
    rw [aplica_tudo_cons]
    exact ih (aplica op cartas) (hl ▸ hk) hc hv

/-! ### Length preservation -/

lemma length_aplica (op : Op) (cartas : List Carta) :
    (aplica op cartas).length = cartas.length := by
  cases op with
  | clique coord => simp [aplica, trata_clique]
  | resolver =>
    show (ocultar_cartas_se_necessario cartas).1.length = cartas.length
    by_cases hlen : (coleta_viradas cartas).length = 2
    · obtain ⟨i0, i1, hc⟩ := List.length_eq_two.mp hlen
      rw [resolver_par cartas i0 i1 hc]
      by_cases hv : (cartas.getD i0 default).valor = (cartas.getD i1 default).valor
      · rw [if_pos hv]; simp [length_marca]
      · rw [if_neg hv]; simp
    · rw [resolver_nao_par cartas hlen]

lemma length_aplica_tudo (ops : List Op) (cartas : List Carta) :
    (aplica_tudo ops cartas).length = cartas.length := by
  induction ops generalizing cartas with
  | nil => rfl
  | cons op ops ih =>
    rw [aplica_tudo_cons, ih, length_aplica]

/-! ### The reachability invariant -/

/-- Invariant of every reachable board: it is well-indexed, and every
matched card is face up. -/
def Invariante (cartas : List Carta) : Prop :=
  BoaIdx cartas ∧ ∀ c ∈ cartas, c.combinada = true → c.virada = true

lemma invariante_cria (valores : List ℕ) : Invariante (cria_cartas valores) := by
  refine ⟨boaIdx_cria_cartas valores, ?_⟩
  intro c hc hcomb
  have hv := virgem_cria_cartas_aux 0 valores c hc
  rw [hv.1] at hcomb
  simp at hcomb

lemma invariante_clique (coord : ℤ × ℤ) (cartas : List Carta)
    (h : Invariante cartas) : Invariante (trata_clique coord cartas) := by
  obtain ⟨hB, hI⟩ := h
  constructor
  · apply boaIdx_of_getD
    intro k hk
    have hk2 : k < cartas.length := by simpa [trata_clique] using hk
    rw [trata_clique, getD_map_carta _ _ _ hk2]
    have hidx := boaIdx_getD cartas hB k hk2
    split <;> simp_all [Carta.virar]
  · intro c hc hcomb
    rw [trata_clique, List.mem_map] at hc
    obtain ⟨c0, hc0, rfl⟩ := hc
    by_cases hcl : c0.foi_clicada coord = true
    · simp [hcl, Carta.virar]
    · rw [if_neg hcl] at hcomb ⊢
      exact hI c0 hc0 hcomb

lemma invariante_resolver (cartas : List Carta) (h : Invariante cartas) :
    Invariante ((ocultar_cartas_se_necessario cartas).1) := by
  obtain ⟨hB, hI⟩ := h
  by_cases hlen : (coleta_viradas cartas).length = 2
  · obtain ⟨i0, i1, hc⟩ := List.length_eq_two.mp hlen
    have hm0 : i0 ∈ coleta_viradas cartas := by rw [hc]; simp
    have hm1 : i1 ∈ coleta_viradas cartas := by rw [hc]; simp
    rw [mem_coleta_iff cartas hB] at hm0 hm1
    by_cases hv : (cartas.getD i0 default).valor = (cartas.getD i1 default).valor
    · obtain ⟨hlen1, hdesc⟩ := resolver_igual_descr cartas hB i0 i1 hc hv
      constructor
      · apply boaIdx_of_getD
        intro k hk
        rw [hlen1] at hk
        rw [hdesc k hk]
        have hidx := boaIdx_getD cartas hB k hk
        split <;> simp_all
      · intro c hcm hcomb
        obtain ⟨k, hk, hck⟩ := (mem_iff_getD _ c).mp hcm
        rw [hlen1] at hk
        rw [hdesc k hk] at hck
        subst hck
        split_ifs at hcomb ⊢ with hor
        · rcases hor with rfl | rfl
          · exact hm0.2.1
          · exact hm1.2.1
        · exact hI _ ((mem_iff_getD _ _).mpr ⟨k, hk, rfl⟩) hcomb
    · obtain ⟨_, hlen1, hdesc⟩ := resolver_difer_descr cartas hB i0 i1 hc hv
      constructor
      · apply boaIdx_of_getD
        intro k hk
        rw [hlen1] at hk
        rw [hdesc k hk]
        have hidx := boaIdx_getD cartas hB k hk
        split <;> simp_all
      · intro c hcm hcomb
        obtain ⟨k, hk, hck⟩ := (mem_iff_getD _ c).mp hcm
        rw [hlen1] at hk
        rw [hdesc k hk] at hck
        subst hck
        split_ifs at hcomb ⊢ with hor
        · rcases hor with rfl | rfl
          · rw [show ({ cartas.getD k default with virada := false } : Carta).combinada
                = (cartas.getD k default).combinada from rfl, hm0.2.2] at hcomb
            simp at hcomb
          · rw [show ({ cartas.getD k default with virada := false } : Carta).combinada
                = (cartas.getD k default).combinada from rfl, hm1.2.2] at hcomb
            simp at hcomb
        · exact hI _ ((mem_iff_getD _ _).mpr ⟨k, hk, rfl⟩) hcomb
  · rw [resolver_nao_par cartas hlen]
    exact ⟨hB, hI⟩

lemma invariante_aplica (op : Op) (cartas : List Carta) (h : Invariante cartas) :
    Invariante (aplica op cartas) := by
  cases op with
  | clique coord => exact invariante_clique coord cartas h
  | resolver => exact invariante_resolver cartas h

lemma invariante_aplica_tudo (ops : List Op) (cartas : List Carta)
    (h : Invariante cartas) : Invariante (aplica_tudo ops cartas) := by
  induction ops generalizing cartas with
  | nil => exact h
  | cons op ops ih =>
    rw [aplica_tudo_cons]
    exact ih _ (invariante_aplica op cartas h)

lemma atingivel_invariante (cartas : List Carta) (h : Atingivel cartas) :
    Invariante cartas := by
  obtain ⟨valores, ops, hperm, hdef⟩ := h
  rw [hdef]
  exact invariante_aplica_tudo ops _ (invariante_cria valores)

/-! ### Counting values in the generated deck -/

lemma count_baralho (v : ℕ) (hv : v < 10) : baralho_valores.count v = 2 := by
  rw [baralho_valores, List.count_append]
  have h1 : (List.range (20 / 2)).count v = 1 :=
    List.count_eq_one_of_mem (List.nodup_range _)
      (List.mem_range.mpr (by omega))
  omega

/-! ### At most one card contains any click point -/

lemma getD_cria_cartas_aux (i : ℕ) (vs : List ℕ) (k : ℕ) (hk : k < vs.length) :
    (cria_cartas_aux i vs).getD k default = Carta.init (vs.getD k 0) (i + k) := by
  induction vs generalizing i k with
  | nil => simp at hk
  | cons v vs ih =>
    cases k with
    | zero => simp [cria_cartas_aux]
    | succ k =>
      rw [cria_cartas_aux]
      rw [List.getD_cons_succ, List.getD_cons_succ]
      rw [ih (i + 1) k (by simpa using hk)]
      have harit : i + 1 + k = i + (k + 1) := by omega
      rw [harit]

lemma getD_cria_cartas (valores : List ℕ) (k : ℕ) (hk : k < valores.length) :
    (cria_cartas valores).getD k default = Carta.init (valores.getD k 0) k := by
  rw [cria_cartas, getD_cria_cartas_aux 0 valores k hk]
  simp

lemma cria_pairwise_disjuntas (valores : List ℕ) (coord : ℤ × ℤ) :
    (cria_cartas valores).Pairwise
      (fun a b => ¬(a.foi_clicada coord = true ∧ b.foi_clicada coord = true)) := by
  rw [List.pairwise_iff_getElem]
  intro i j hi hj hij
  have hi2 : i < valores.length := by rwa [length_cria_cartas] at hi
  have hj2 : j < valores.length := by rwa [length_cria_cartas] at hj
  have ei : (cria_cartas valores).getD i default = Carta.init (valores.getD i 0) i :=
    getD_cria_cartas valores i hi2
  have ej : (cria_cartas valores).getD j default = Carta.init (valores.getD j 0) j :=
    getD_cria_cartas valores j hj2
  rw [List.getD_eq_getElem _ _ hi] at ei
  rw [List.getD_eq_getElem _ _ hj] at ej
  rw [ei, ej]
  exact cartas_disjuntas _ _ i j (by omega) coord

lemma countP_le_um (p : Carta → Bool) (l : List Carta)
    (h : l.Pairwise (fun a b => ¬(p a = true ∧ p b = true))) :
    l.countP p ≤ 1 := by
  induction l with
  | nil => simp
  | cons c l ih =>
    rw [List.pairwise_cons] at h
    rw [List.countP_cons]
    by_cases hc : p c = true
    · have hz : l.countP p = 0 := by
        rw [List.countP_eq_zero]
        intro a ha hpa
        exact h.1 a ha ⟨hc, hpa⟩
      simp [hz, hc]
    · have hrec := ih h.2
      simp only [hc, if_false]
      simpa using hrec

/-- Click resolution as the spec words it (`card_at_point` followed by a
single flip): flip only the first card whose containment test accepts the
point.  Used to compare the source's flip-all-containing-cards loop with
the spec's first-match rule. -/
def trata_clique_primeira (coord : ℤ × ℤ) : List Carta → List Carta
  | [] => []
  | c :: resto =>
    if c.foi_clicada coord then c.virar :: resto
    else c :: trata_clique_primeira coord resto

lemma trata_clique_eq_primeira (coord : ℤ × ℤ) (l : List Carta)
    (h : l.Pairwise
      (fun a b => ¬(a.foi_clicada coord = true ∧ b.foi_clicada coord = true))) :
    trata_clique coord l = trata_clique_primeira coord l := by
  induction l with
  | nil => rfl
  | cons c l ih =>
    rw [List.pairwise_cons] at h
    rw [trata_clique, List.map_cons]
    simp only [trata_clique_primeira]
    by_cases hc : c.foi_clicada coord = true
    · rw [if_pos hc, if_pos hc]
      congr 1
      apply map_eq_self_de
      intro x hx
      rw [if_neg (fun hpx => h.1 x hx ⟨hc, hpx⟩)]
    · rw [if_neg hc, if_neg hc]
      congr 1
      exact ih h.2

/-! ### The claims -/

/-- Claim C1: on a well-indexed board in which exactly two unmatched cards
are Revealed (at positions `i0`, `i1`) and those two cards have equal
values, one resolver step sets `combinada = true` on both of those cards,
both remain Revealed, no other card changes, and the pair stays matched
and Revealed under every further sequence of operations (no revert). -/
theorem C1_par_igual_marca (cartas : List Carta) (hB : BoaIdx cartas)
    (i0 i1 : ℕ) (hc : coleta_viradas cartas = [i0, i1])
    (heq : (cartas.getD i0 default).valor = (cartas.getD i1 default).valor) :
    (ocultar_cartas_se_necessario cartas).1.length = cartas.length ∧
    (∀ k, k < cartas.length → (k = i0 ∨ k = i1) →
      (ocultar_cartas_se_necessario cartas).1.getD k default =
        { cartas.getD k default with combinada := true } ∧
      ((ocultar_cartas_se_necessario cartas).1.getD k default).virada = true) ∧
    (∀ k, k < cartas.length → k ≠ i0 → k ≠ i1 →
      (ocultar_cartas_se_necessario cartas).1.getD k default =
        cartas.getD k default) ∧
    (∀ ops k, k < cartas.length → (k = i0 ∨ k = i1) →
      ((aplica_tudo ops (ocultar_cartas_se_necessario cartas).1).getD k
          default).combinada = true ∧
      ((aplica_tudo ops (ocultar_cartas_se_necessario cartas).1).getD k
          default).virada = true) := by
  have hm0 : i0 ∈ coleta_viradas cartas := by rw [hc]; simp
  have hm1 : i1 ∈ coleta_viradas cartas := by rw [hc]; simp
  rw [mem_coleta_iff cartas hB] at hm0 hm1
  obtain ⟨hlen1, hdesc⟩ := resolver_igual_descr cartas hB i0 i1 hc heq
  have hmarcado : ∀ k, k < cartas.length → (k = i0 ∨ k = i1) →
      (ocultar_cartas_se_necessario cartas).1.getD k default =
        { cartas.getD k default with combinada := true } ∧
      ((ocultar_cartas_se_necessario cartas).1.getD k default).virada = true := by
    intro k hk hor
    rw [hdesc k hk, if_pos hor]
    refine ⟨rfl, ?_⟩
    rcases hor with rfl | rfl
    · exact hm0.2.1
    · exact hm1.2.1
  refine ⟨hlen1, hmarcado, ?_, ?_⟩
  · intro k hk h0 h1
    rw [hdesc k hk, if_neg (by tauto)]
  · intro ops k hk hor
    obtain ⟨he, hvir⟩ := hmarcado k hk hor
    have hcomb : ((ocultar_cartas_se_necessario cartas).1.getD k
        default).combinada = true := by
      rw [he]
    exact (persiste_ops ops _ k (by rw [hlen1]; exact hk) hcomb hvir).2

/-- Claim C2: on a well-indexed board in which exactly two unmatched cards
are Revealed (at positions `i0`, `i1`) and those two cards have unequal
values, one resolver step applies the fixed 0.5 time-unit delay and turns
exactly those two cards face down again; their `combinada` flag stays
`false`, and every other card is unchanged (matched cards are exempt from
hiding). -/
theorem C2_par_diferente_esconde (cartas : List Carta) (hB : BoaIdx cartas)
    (i0 i1 : ℕ) (hc : coleta_viradas cartas = [i0, i1])
    (hval : (cartas.getD i0 default).valor ≠ (cartas.getD i1 default).valor) :
    (ocultar_cartas_se_necessario cartas).2 = 1/2 ∧
    (ocultar_cartas_se_necessario cartas).1.length = cartas.length ∧
    (∀ k, k < cartas.length → (k = i0 ∨ k = i1) →
      (ocultar_cartas_se_necessario cartas).1.getD k default =
        { cartas.getD k default with virada := false } ∧
      ((ocultar_cartas_se_necessario cartas).1.getD k default).combinada
        = false) ∧
    (∀ k, k < cartas.length → k ≠ i0 → k ≠ i1 →
      (ocultar_cartas_se_necessario cartas).1.getD k default =
        cartas.getD k default) := by
  have hm0 : i0 ∈ coleta_viradas cartas := by rw [hc]; simp
  have hm1 : i1 ∈ coleta_viradas cartas := by rw [hc]; simp
  rw [mem_coleta_iff cartas hB] at hm0 hm1
  obtain ⟨hdelay, hlen1, hdesc⟩ := resolver_difer_descr cartas hB i0 i1 hc hval
  refine ⟨hdelay, hlen1, ?_, ?_⟩
  · intro k hk hor
    rw [hdesc k hk, if_pos hor]
    refine ⟨rfl, ?_⟩
    rcases hor with rfl | rfl
    · exact hm0.2.2
    · exact hm1.2.2
  · intro k hk h0 h1
    rw [hdesc k hk, if_neg (by tauto)]

/-- Claim C3: once a card is matched (and hence Revealed), every sequence
of the program's operations — clicks handled by `trata_clique`/`virar` and
resolver steps by `ocultar_cartas_se_necessario` — keeps it matched and
Revealed: no subsequent operation sets its `face_state` to Hidden. -/
theorem C3_combinada_fica_virada (cartas : List Carta) (ops : List Op)
    (k : ℕ) (hk : k < cartas.length)
    (h1 : (cartas.getD k default).combinada = true)
    (h2 : (cartas.getD k default).virada = true) :
    ((aplica_tudo ops cartas).getD k default).combinada = true ∧
    ((aplica_tudo ops cartas).getD k default).virada = true :=
  (persiste_ops ops cartas k hk h1 h2).2

/-- Claim C4: board generation with the fixed pair count 10 produces
exactly 20 cards, and each value `v < 10` appears on exactly two cards,
for every outcome of the shuffle. -/
theorem C4_baralho_pares (valores : List ℕ)
    (hp : valores.Perm baralho_valores) :
    (cria_cartas valores).length = 2 * 10 ∧
    ∀ v, v < 10 → ((cria_cartas valores).map Carta.valor).count v = 2 := by
  constructor
  · rw [length_cria_cartas, hp.length_eq]
    rfl
  · intro v hv
    rw [cria_cartas, map_valor_cria_cartas_aux, hp.count_eq v]
    exact count_baralho v hv

/-- Claim C5: on every generated board, at most one card's containment
test accepts any click point (the layout rectangles are pairwise disjoint
even with closed-interval boundaries), hence flipping every containing
card — what `trata_clique` does — coincides with flipping only the first
containing card. -/
theorem C5_clique_unico (valores : List ℕ)
    (hp : valores.Perm baralho_valores) (coord : ℤ × ℤ) :
    (cria_cartas valores).countP (fun c => c.foi_clicada coord) ≤ 1 ∧
    trata_clique coord (cria_cartas valores) =
      trata_clique_primeira coord (cria_cartas valores) :=
  ⟨countP_le_um _ _ (cria_pairwise_disjuntas valores coord),
   trata_clique_eq_primeira coord _ (cria_pairwise_disjuntas valores coord)⟩

/-- Claim C6: the containment test uses closed intervals on both axes: it
accepts all four corner points of the card's margin-shifted rectangle and
rejects every point strictly outside it.  (In this embedding
`Carta.foi_clicada` is a pure function, so it has no side effects on the
card by construction.) -/
theorem C6_intervalos_fechados (c : Carta) :
    ((c.foi_clicada (Carta.margem + c.posx, Carta.margem + c.posy) = true) ∧
     (c.foi_clicada (Carta.margem + c.posx + Carta.largura,
        Carta.margem + c.posy) = true) ∧
     (c.foi_clicada (Carta.margem + c.posx,
        Carta.margem + c.posy + Carta.altura) = true) ∧
     (c.foi_clicada (Carta.margem + c.posx + Carta.largura,
        Carta.margem + c.posy + Carta.altura) = true)) ∧
    ∀ p : ℤ × ℤ,
      (p.1 < Carta.margem + c.posx ∨
       Carta.margem + c.posx + Carta.largura < p.1 ∨
       p.2 < Carta.margem + c.posy ∨
       Carta.margem + c.posy + Carta.altura < p.2) →
      c.foi_clicada p = false := by
  constructor
  · refine ⟨?_, ?_, ?_, ?_⟩ <;>
    · rw [foi_clicada_iff]
      simp only [Carta.margem, Carta.largura, Carta.altura]
      omega
  · intro p hp
    cases hfc : c.foi_clicada p with
    | false => rfl
    | true =>
      exfalso
      rw [foi_clicada_iff] at hfc
      omega

/-- Claim C7: a click at a point outside every card's rectangle is
silently ignored: `trata_clique` returns the card list unchanged (and, the
embedding being total, no exception is raised). -/
theorem C7_clique_fora_ignorado (cartas : List Carta) (coord : ℤ × ℤ)
    (h : ∀ c ∈ cartas, c.foi_clicada coord = false) :
    trata_clique coord cartas = cartas := by
  apply map_eq_self_de
  intro c hc
  rw [if_neg (by simp [h c hc])]

/-- Claim C8: on every reachable board in which all cards are matched,
no further operation changes any card: every click handled by
`trata_clique` and every resolver step by `ocultar_cartas_se_necessario`
leave the board unchanged (and the resolver does not even sleep). -/
theorem C8_tabuleiro_congelado (cartas : List Carta) (hA : Atingivel cartas)
    (hall : ∀ c ∈ cartas, c.combinada = true) :
    (∀ coord, trata_clique coord cartas = cartas) ∧
    ocultar_cartas_se_necessario cartas = (cartas, 0) := by
  obtain ⟨hB, hI⟩ := atingivel_invariante cartas hA
  constructor
  · intro coord
    apply map_eq_self_de
    intro c hc
    have hv : c.virada = true := hI c hc (hall c hc)
    split
    · exact carta_virar_self c hv
    · rfl
  · apply resolver_nao_par
    have hnil : coleta_viradas cartas = [] := by
      unfold coleta_viradas
      have hfil : cartas.filter (fun c => !c.combinada && c.virada) = [] := by
        rw [List.filter_eq_nil_iff]
        intro a ha
        simp [hall a ha]
      rw [hfil]
      rfl
    rw [hnil]
    simp

/-- Claim C9: whenever the number of Revealed unmatched cards is not
exactly 2 (zero, one, or three and more), a resolver step changes no
card's state and does not sleep. -/
theorem C9_resolver_inerte (cartas : List Carta)
    (h : cartas.countP (fun c => !c.combinada && c.virada) ≠ 2) :
    ocultar_cartas_se_necessario cartas = (cartas, 0) := by
  apply resolver_nao_par
  rw [coleta_length_countP]
  exact h

/-- Claim C10: on every board the program can produce (a generated deck
followed by any sequence of operations) the card at list position `i` has
`indice = i` — the `indice` fields read off in order are exactly
`0, ..., 19` — and consequently every index the resolver collects is the
position of a Revealed unmatched card carrying that very index, so the
lookups `cartas[indices[0]]` and `cartas[indices[1]]` retrieve exactly the
cards that were collected. -/
theorem C10_indices_sao_posicoes (valores : List ℕ)
    (hp : valores.Perm baralho_valores) (ops : List Op) :
    (aplica_tudo ops (cria_cartas valores)).map Carta.indice =
      List.range 20 ∧
    ∀ j ∈ coleta_viradas (aplica_tudo ops (cria_cartas valores)),
      j < (aplica_tudo ops (cria_cartas valores)).length ∧
      ((aplica_tudo ops (cria_cartas valores)).getD j default).indice = j ∧
      ((aplica_tudo ops (cria_cartas valores)).getD j default).virada
        = true ∧
      ((aplica_tudo ops (cria_cartas valores)).getD j default).combinada
        = false := by
  have hB : BoaIdx (aplica_tudo ops (cria_cartas valores)) :=
    (invariante_aplica_tudo ops _ (invariante_cria valores)).1
  have hlen : (aplica_tudo ops (cria_cartas valores)).length = 20 := by
    rw [length_aplica_tudo, length_cria_cartas, hp.length_eq]
    rfl
  constructor
  · have hmap := hB
    unfold BoaIdx at hmap
    rw [hmap, hlen]
  · intro j hj
    rw [mem_coleta_iff _ hB] at hj
    exact ⟨hj.1, boaIdx_getD _ hB j hj.1, hj.2.1, hj.2.2⟩

/-! ### Concrete boards for the witnesses -/

/-- The deck generated from the unshuffled value list. -/
def tabuleiro0 : List Carta := cria_cartas baralho_valores

/-- The centre point of the card at deck position `i`. -/
def clique_centro (i : ℕ) : ℤ × ℤ :=
  (70 + 60 * ((i % 5 : ℕ) : ℤ), 90 + 100 * ((i / 5 : ℕ) : ℤ))

/-- `tabuleiro0` after clicking the two cards of value 0 (positions 0 and
10). -/
def tab_par : List Carta :=
  trata_clique (clique_centro 10) (trata_clique (clique_centro 0) tabuleiro0)

/-- `tabuleiro0` after clicking the cards at positions 0 and 1 (values 0
and 1). -/
def tab_difer : List Carta :=
  trata_clique (clique_centro 1) (trata_clique (clique_centro 0) tabuleiro0)

/-- `tab_par` after one resolver step: the two value-0 cards are matched. -/
def tab_casado : List Carta := (ocultar_cartas_se_necessario tab_par).1

/-- Clicking both cards of each pair and resolving, for all ten pairs. -/
def ops_resolve : List Op :=
  [Op.clique (clique_centro 0), Op.clique (clique_centro 10), Op.resolver,
   Op.clique (clique_centro 1), Op.clique (clique_centro 11), Op.resolver,
   Op.clique (clique_centro 2), Op.clique (clique_centro 12), Op.resolver,
   Op.clique (clique_centro 3), Op.clique (clique_centro 13), Op.resolver,
   Op.clique (clique_centro 4), Op.clique (clique_centro 14), Op.resolver,
   Op.clique (clique_centro 5), Op.clique (clique_centro 15), Op.resolver,
   Op.clique (clique_centro 6), Op.clique (clique_centro 16), Op.resolver,
   Op.clique (clique_centro 7), Op.clique (clique_centro 17), Op.resolver,
   Op.clique (clique_centro 8), Op.clique (clique_centro 18), Op.resolver,
   Op.clique (clique_centro 9), Op.clique (clique_centro 19), Op.resolver]

/-- The fully solved board. -/
def tab_resolvido : List Carta := aplica_tudo ops_resolve tabuleiro0

/-! ### Witnesses -/

/-- Witness for C1 at a concrete board: the two value-0 cards are face up,
one resolver step marks position 0 matched and keeps it Revealed. -/
theorem C1_par_igual_marca_witness :
    (ocultar_cartas_se_necessario tab_par).1.getD 0 default =
      { tab_par.getD 0 default with combinada := true } ∧
    ((ocultar_cartas_se_necessario tab_par).1.getD 0 default).virada
      = true :=
  (C1_par_igual_marca tab_par (by unfold BoaIdx; decide) 0 10 (by decide)
    (by decide)).2.1 0 (by decide) (Or.inl rfl)

/-- Witness for C2 at a concrete board: positions 0 and 1 (values 0 and 1)
are face up, one resolver step sleeps 0.5 and hides position 0. -/
theorem C2_par_diferente_esconde_witness :
    (ocultar_cartas_se_necessario tab_difer).2 = 1/2 ∧
    (ocultar_cartas_se_necessario tab_difer).1.getD 0 default =
      { tab_difer.getD 0 default with virada := false } := by
  have h := C2_par_diferente_esconde tab_difer (by unfold BoaIdx; decide) 0 1
    (by decide) (by decide)
  exact ⟨h.1, (h.2.2.1 0 (by decide) (Or.inl rfl)).1⟩

/-- Witness for C3: the matched card at position 0 of `tab_casado` stays
matched and Revealed across a further resolver step. -/
theorem C3_combinada_fica_virada_witness :
    ((aplica_tudo [Op.resolver] tab_casado).getD 0 default).combinada
      = true ∧
    ((aplica_tudo [Op.resolver] tab_casado).getD 0 default).virada
      = true :=
  C3_combinada_fica_virada tab_casado [Op.resolver] 0 (by decide)
    (by decide) (by decide)

/-- Witness for C4 on the identity shuffle, counting value 3. -/
theorem C4_baralho_pares_witness :
    (cria_cartas baralho_valores).length = 2 * 10 ∧
    ((cria_cartas baralho_valores).map Carta.valor).count 3 = 2 := by
  have h := C4_baralho_pares baralho_valores (List.Perm.refl _)
  exact ⟨h.1, h.2 3 (by decide)⟩

/-- Witness for C5 on the identity shuffle at the centre of card 0. -/
theorem C5_clique_unico_witness :
    (cria_cartas baralho_valores).countP
      (fun c => c.foi_clicada (70, 90)) ≤ 1 ∧
    trata_clique (70, 90) (cria_cartas baralho_valores) =
      trata_clique_primeira (70, 90) (cria_cartas baralho_valores) :=
  C5_clique_unico baralho_valores (List.Perm.refl _) (70, 90)

/-- Witness for C6 on the card at deck position 7: its top-left corner is
accepted, a strictly outside point is rejected. -/
theorem C6_intervalos_fechados_witness :
    (Carta.init 3 7).foi_clicada
      (Carta.margem + (Carta.init 3 7).posx,
       Carta.margem + (Carta.init 3 7).posy) = true ∧
    (Carta.init 3 7).foi_clicada (0, 0) = false := by
  have h := C6_intervalos_fechados (Carta.init 3 7)
  exact ⟨h.1.1, h.2 (0, 0) (by decide)⟩

/-- Witness for C7: the point (0, 0) lies outside every card of the
generated deck, so the click leaves the deck unchanged. -/
theorem C7_clique_fora_ignorado_witness :
    trata_clique (0, 0) tabuleiro0 = tabuleiro0 :=
  C7_clique_fora_ignorado tabuleiro0 (0, 0) (by decide)

/-- Witness for C8: after matching all ten pairs the board is frozen. -/
theorem C8_tabuleiro_congelado_witness :
    trata_clique (70, 90) tab_resolvido = tab_resolvido ∧
    ocultar_cartas_se_necessario tab_resolvido = (tab_resolvido, 0) := by
  have h := C8_tabuleiro_congelado tab_resolvido
    ⟨baralho_valores, ops_resolve, List.Perm.refl _, rfl⟩ (by decide)
  exact ⟨h.1 (70, 90), h.2⟩

/-- Witness for C9: on the all-hidden starting deck the resolver changes
nothing. -/
theorem C9_resolver_inerte_witness :
    ocultar_cartas_se_necessario tabuleiro0 = (tabuleiro0, 0) :=
  C9_resolver_inerte tabuleiro0 (by decide)

/-- Witness for C10 on the identity shuffle after one resolver step. -/
theorem C10_indices_sao_posicoes_witness :
    (aplica_tudo [Op.resolver] (cria_cartas baralho_valores)).map
      Carta.indice = List.range 20 :=
  (C10_indices_sao_posicoes baralho_valores (List.Perm.refl _)
    [Op.resolver]).1
